import Mathlib

/-
  Verification of the image-link field normalizer of the Egypt Sites API
  (src/main.py, `Site.ensure_list_of_strings`).

  A shallow embedding: Python runtime values are modelled by `PyVal`,
  Python's `str()` / `repr()` by `pyStr` / `pyRepr`, `str.strip()` by
  `pyStrip`, `str.lower()` by `pyLower`, and `json.loads` by `json_loads`
  (a recursive-descent JSON reader in the style of the CPython `json`
  module, including its acceptance of NaN / Infinity / -Infinity).
  The validator itself is `ensure_list_of_strings`, returning in the
  exception monad `Except PyErr` so that "never raises" is expressible.
-/

namespace EgyptSites

/-- IEEE floats are modelled by the decimal value the JSON text denotes
(mantissa `m` times ten to the `e`), plus the nonfinite constants the
CPython json module accepts.  No claim evaluates float formatting. -/
inductive PyFloat where
  | finite (m : Int) (e : Int)
  | inf
  | neginf
  | nan

/-- Python runtime values as seen by the validator: `None`, `bool`, `int`,
`float`, `str`, `list`, `dict` (a dict is its insertion-ordered key/value
pairs). -/
inductive PyVal where
  | none
  | bool (b : Bool)
  | int (n : Int)
  | float (f : PyFloat)
  | str (s : String)
  | list (xs : List PyVal)
  | dict (kvs : List (PyVal × PyVal))

/-- The one exception the validator's `try` block can see: `json.loads` on a
`str` argument fails only with `json.JSONDecodeError`. -/
inductive PyErr where
  | jsonDecodeError

/-- The characters `str.strip()` (no arguments) removes: the Unicode
whitespace set used by CPython `str.isspace`. -/
def pyWhitespaceChars : List Char :=
  [Char.ofNat 0x09, Char.ofNat 0x0a, Char.ofNat 0x0b, Char.ofNat 0x0c,
   Char.ofNat 0x0d, Char.ofNat 0x1c, Char.ofNat 0x1d, Char.ofNat 0x1e,
   Char.ofNat 0x1f, Char.ofNat 0x20, Char.ofNat 0x85, Char.ofNat 0xa0,
   Char.ofNat 0x1680, Char.ofNat 0x2000, Char.ofNat 0x2001, Char.ofNat 0x2002,
   Char.ofNat 0x2003, Char.ofNat 0x2004, Char.ofNat 0x2005, Char.ofNat 0x2006,
   Char.ofNat 0x2007, Char.ofNat 0x2008, Char.ofNat 0x2009, Char.ofNat 0x200a,
   Char.ofNat 0x2028, Char.ofNat 0x2029, Char.ofNat 0x202f, Char.ofNat 0x205f,
   Char.ofNat 0x3000]

def pyIsSpace (c : Char) : Bool := pyWhitespaceChars.contains c

/-- Python `s.strip()`: drop leading and trailing whitespace. -/
def pyStrip (s : String) : String :=
  String.mk (((s.data.dropWhile pyIsSpace).reverse.dropWhile pyIsSpace).reverse)

/-- Python `s.lower()`, restricted to ASCII case folding — the only letters
relevant to the validator's comparison against the literal "null". -/
def pyLower (s : String) : String := String.mk (s.data.map Char.toLower)

def squote : Char := Char.ofNat 39
def dquote : Char := Char.ofNat 34
def bslash : Char := Char.ofNat 92
def lbrace : Char := Char.ofNat 123
def rbrace : Char := Char.ofNat 125

def hexDigitChar (n : Nat) : Char :=
  if n < 10 then Char.ofNat (48 + n) else Char.ofNat (87 + n)

def hex2 (n : Nat) : String :=
  String.mk [hexDigitChar (n / 16 % 16), hexDigitChar (n % 16)]

/-- One character of Python `repr` of a string, given the chosen quote
character `q`.  Printable characters pass through; the quote, backslash and
control characters are escaped as CPython does. -/
def strReprChar (q : Char) (c : Char) : String :=
  if c = bslash then String.mk [bslash, bslash]
  else if c = q then String.mk [bslash, q]
  else if c = Char.ofNat 10 then String.mk [bslash, Char.ofNat 110]
  else if c = Char.ofNat 13 then String.mk [bslash, Char.ofNat 114]
  else if c = Char.ofNat 9 then String.mk [bslash, Char.ofNat 116]
  else if c.toNat < 32 ∨ c.toNat = 127 then String.mk [bslash, Char.ofNat 120] ++ hex2 c.toNat
  else String.mk [c]

/-- Python `repr` of a string: single quotes, or double quotes when the text
contains a single quote but no double quote. -/
def strRepr (s : String) : String :=
  let q := if s.data.contains squote ∧ ¬ s.data.contains dquote then dquote else squote
  String.mk [q] ++ String.join (s.data.map (strReprChar q)) ++ String.mk [q]

/-- Repeated zeros, for rendering a decimal float. -/
def zeros : Nat → String
  | 0 => ""
  | n + 1 => "0" ++ zeros n

/-- Strip factors of ten from a mantissa (fuelled by digit count). -/
def stripTens : Nat → Nat → Nat × Nat
  | 0, m => (m, 0)
  | fu + 1, m =>
    if m ≠ 0 ∧ m % 10 = 0 then
      let (m2, k) := stripTens fu (m / 10)
      (m2, k + 1)
    else (m, 0)

/-- Python `str` of a finite float, rendered as the plain decimal of the
normalized mantissa/exponent.  This agrees with CPython on short decimals
such as `1.5` and `100.0`; the scientific-notation regime of CPython's
shortest-repr algorithm is not modelled and no claim exercises it. -/
def finiteFloatStr (m : Int) (e : Int) : String :=
  let n := m.natAbs
  let (n2, k) := stripTens 40 n
  let e2 : Int := e + Int.ofNat k
  let sign := if m < 0 then "-" else ""
  let digits := toString n2
  let body :=
    if 0 ≤ e2 then digits ++ zeros e2.toNat ++ ".0"
    else
      let kk := (-e2).toNat
      if digits.length > kk then
        String.mk (digits.data.take (digits.length - kk)) ++ "." ++
          String.mk (digits.data.drop (digits.length - kk))
      else "0." ++ zeros (kk - digits.length) ++ digits
  sign ++ body

def floatStr : PyFloat → String
  | PyFloat.inf => "inf"
  | PyFloat.neginf => "-inf"
  | PyFloat.nan => "nan"
  | PyFloat.finite m e => finiteFloatStr m e

/-- Comma-space joined rendering, as Python uses inside list and dict
display. -/
def joinComma : List String → String
  | [] => ""
  | [x] => x
  | x :: y :: ys => x ++ ", " ++ joinComma (y :: ys)

mutual

/-- Python `repr` of a value. -/
def pyRepr : PyVal → String
  | PyVal.none => "None"
  | PyVal.bool true => "True"
  | PyVal.bool false => "False"
  | PyVal.int n => toString n
  | PyVal.float f => floatStr f
  | PyVal.str s => strRepr s
  | PyVal.list xs => "[" ++ joinComma (pyReprList xs) ++ "]"
  | PyVal.dict kvs => "\x7b" ++ joinComma (pyReprPairs kvs) ++ "\x7d"

/-- `repr` of each element of a list. -/
def pyReprList : List PyVal → List String
  | [] => []
  | x :: xs => pyRepr x :: pyReprList xs

/-- `repr` of each key/value pair of a dict. -/
def pyReprPairs : List (PyVal × PyVal) → List String
  | [] => []
  | (k, v) :: ps => (pyRepr k ++ ": " ++ pyRepr v) :: pyReprPairs ps

end

/-- Python `str()` of a value: identity on strings, `repr` otherwise
(CPython: `str(x) == repr(x)` for None, bools, ints, floats, lists, dicts). -/
def pyStr (v : PyVal) : String :=
  match v with
  | PyVal.str s => s
  | _ => pyRepr v

/-- JSON insignificant whitespace (space, tab, newline, carriage return). -/
def skipWs : List Char → List Char
  | [] => []
  | c :: cs =>
    if c = Char.ofNat 0x20 ∨ c = Char.ofNat 0x09 ∨ c = Char.ofNat 0x0a ∨ c = Char.ofNat 0x0d
    then skipWs cs else c :: cs

def hexVal (c : Char) : Option Nat :=
  if Char.ofNat 48 ≤ c ∧ c ≤ Char.ofNat 57 then some (c.toNat - 48)
  else if Char.ofNat 97 ≤ c ∧ c ≤ Char.ofNat 102 then some (c.toNat - 87)
  else if Char.ofNat 65 ≤ c ∧ c ≤ Char.ofNat 70 then some (c.toNat - 55)
  else none

/-- Body of a JSON string literal (opening quote already consumed), strict
mode: raw control characters are rejected, the nine standard escapes and
`\uXXXX` (with surrogate pairs) are decoded.  A lone surrogate, which a
Python `str` can hold but a Lean `String` cannot, is mapped to U+FFFD; no
claim exercises one. -/
def jStrAux : Nat → List Char → List Char → Option (String × List Char)
  | 0, _, _ => none
  | _ + 1, [], _ => none
  | fu + 1, c :: rest, acc =>
    if c = dquote then some (String.mk acc.reverse, rest)
    else if c = bslash then
      match rest with
      | [] => none
      | e :: r2 =>
        if e = dquote then jStrAux fu r2 (dquote :: acc)
        else if e = bslash then jStrAux fu r2 (bslash :: acc)
        else if e = Char.ofNat 47 then jStrAux fu r2 (Char.ofNat 47 :: acc)
        else if e = Char.ofNat 98 then jStrAux fu r2 (Char.ofNat 8 :: acc)
        else if e = Char.ofNat 102 then jStrAux fu r2 (Char.ofNat 12 :: acc)
        else if e = Char.ofNat 110 then jStrAux fu r2 (Char.ofNat 10 :: acc)
        else if e = Char.ofNat 114 then jStrAux fu r2 (Char.ofNat 13 :: acc)
        else if e = Char.ofNat 116 then jStrAux fu r2 (Char.ofNat 9 :: acc)
        else if e = Char.ofNat 117 then
          match r2 with
          | h1 :: h2 :: h3 :: h4 :: r3 =>
            match hexVal h1, hexVal h2, hexVal h3, hexVal h4 with
            | some a, some b, some cDig, some d =>
              let code := a * 4096 + b * 256 + cDig * 16 + d
              if 0xd800 ≤ code ∧ code ≤ 0xdbff then
                match r3 with
                | u1 :: u2 :: k1 :: k2 :: k3 :: k4 :: r4 =>
                  if u1 = bslash ∧ u2 = Char.ofNat 117 then
                    match hexVal k1, hexVal k2, hexVal k3, hexVal k4 with
                    | some a2, some b2, some c2, some d2 =>
                      let low := a2 * 4096 + b2 * 256 + c2 * 16 + d2
                      if 0xdc00 ≤ low ∧ low ≤ 0xdfff then
                        jStrAux fu r4
                          (Char.ofNat (0x10000 + (code - 0xd800) * 1024 + (low - 0xdc00)) :: acc)
                      else jStrAux fu (k1 :: k2 :: k3 :: k4 :: r4) (Char.ofNat 0xfffd :: acc)
                    | _, _, _, _ => jStrAux fu r3 (Char.ofNat 0xfffd :: acc)
                  else jStrAux fu r3 (Char.ofNat 0xfffd :: acc)
                | _ => jStrAux fu r3 (Char.ofNat 0xfffd :: acc)
              else if 0xdc00 ≤ code ∧ code ≤ 0xdfff then
                jStrAux fu r3 (Char.ofNat 0xfffd :: acc)
              else jStrAux fu r3 (Char.ofNat code :: acc)
            | _, _, _, _ => none
          | _ => none
        else none
    else if c.toNat < 32 then none
    else jStrAux fu rest (c :: acc)

def digitsToNat (ds : List Char) : Nat :=
  ds.foldl (fun acc c => acc * 10 + (c.toNat - 48)) 0

/-- A JSON number (or the constant `Infinity` after a minus sign), per the
CPython json scanner: integer part without leading zeros, optional fraction,
optional exponent; a number with fraction or exponent is a float. -/
def jNum (cs : List Char) : Option (PyVal × List Char) :=
  let (neg, cs1) :=
    match cs with
    | c :: r => if c = Char.ofNat 45 then (true, r) else (false, cs)
    | [] => (false, cs)
  match cs1 with
  | 'I' :: 'n' :: 'f' :: 'i' :: 'n' :: 'i' :: 't' :: 'y' :: r =>
    if neg then some (PyVal.float PyFloat.neginf, r)
    else some (PyVal.float PyFloat.inf, r)
  | _ =>
    let intDigits := cs1.takeWhile Char.isDigit
    let r1 := cs1.dropWhile Char.isDigit
    if intDigits = [] then none
    else if intDigits.length > 1 ∧ intDigits.headD 'x' = Char.ofNat 48 then none
    else
      let (fracDigits, r2, hasFrac) :=
        match r1 with
        | c :: r =>
          if c = Char.ofNat 46 then (r.takeWhile Char.isDigit, r.dropWhile Char.isDigit, true)
          else ([], r1, false)
        | [] => ([], r1, false)
      if hasFrac ∧ fracDigits = [] then none
      else
        let (expVal, r3, hasExp, expOk) :=
          match r2 with
          | c :: r =>
            if c = Char.ofNat 101 ∨ c = Char.ofNat 69 then
              let (esign, r4) :=
                match r with
                | d :: rr =>
                  if d = Char.ofNat 45 then (true, rr)
                  else if d = Char.ofNat 43 then (false, rr)
                  else (false, r)
                | [] => (false, r)
              let eDigits := r4.takeWhile Char.isDigit
              let r5 := r4.dropWhile Char.isDigit
              if eDigits = [] then (0, r5, true, false)
              else
                let ev : Int := Int.ofNat (digitsToNat eDigits)
                ((if esign then -ev else ev), r5, true, true)
            else (0, r2, false, true)
          | [] => (0, r2, false, true)
        if ¬ expOk then none
        else if ¬ hasFrac ∧ ¬ hasExp then
          let n : Int := Int.ofNat (digitsToNat intDigits)
          some (PyVal.int (if neg then -n else n), r3)
        else
          let mant : Int := Int.ofNat (digitsToNat (intDigits ++ fracDigits))
          let m := if neg then -mant else mant
          some (PyVal.float (PyFloat.finite m (expVal - Int.ofNat fracDigits.length)), r3)

/-- Insert a key/value pair as CPython `dict` assignment does: an existing
key keeps its position (and original key object) but takes the new value. -/
def dictInsert : List (PyVal × PyVal) → PyVal → PyVal → List (PyVal × PyVal)
  | [], k, v => [(k, v)]
  | (k0, v0) :: rest, k, v =>
    match k0, k with
    | PyVal.str s0, PyVal.str s =>
      if s0 = s then (k0, v) :: rest else (k0, v0) :: dictInsert rest k v
    | _, _ => (k0, v0) :: dictInsert rest k v

/-- The three recursive states of the JSON reader: a value to read, or the
continuation of an array or object whose opening bracket was consumed. -/
inductive JTask where
  | val (cs : List Char)
  | arrLoop (cs : List Char) (acc : List PyVal)
  | objLoop (cs : List Char) (acc : List (PyVal × PyVal))

/-- One fuelled step of the JSON reader; structural recursion on the fuel,
which the wrapper `json_loads` sets above the number of recursive steps
(every step consumes input). -/
def jStep : Nat → JTask → Option (PyVal × List Char)
  | 0, _ => none
  | fu + 1, JTask.val cs =>
    match skipWs cs with
    | [] => none
    | c :: rest =>
      if c = dquote then
        match jStrAux fu rest [] with
        | some (s, r) => some (PyVal.str s, r)
        | none => none
      else if c = Char.ofNat 91 then
        match skipWs rest with
        | c2 :: rest2 =>
          if c2 = Char.ofNat 93 then some (PyVal.list [], rest2)
          else jStep fu (JTask.arrLoop (c2 :: rest2) [])
        | [] => none
      else if c = lbrace then
        match skipWs rest with
        | c2 :: rest2 =>
          if c2 = rbrace then some (PyVal.dict [], rest2)
          else jStep fu (JTask.objLoop (c2 :: rest2) [])
        | [] => none
      else
        match c :: rest with
        | 'n' :: 'u' :: 'l' :: 'l' :: r => some (PyVal.none, r)
        | 't' :: 'r' :: 'u' :: 'e' :: r => some (PyVal.bool true, r)
        | 'f' :: 'a' :: 'l' :: 's' :: 'e' :: r => some (PyVal.bool false, r)
        | 'N' :: 'a' :: 'N' :: r => some (PyVal.float PyFloat.nan, r)
        | 'I' :: 'n' :: 'f' :: 'i' :: 'n' :: 'i' :: 't' :: 'y' :: r =>
          some (PyVal.float PyFloat.inf, r)
        | cs2 => jNum cs2
  | fu + 1, JTask.arrLoop cs acc =>
    match jStep fu (JTask.val cs) with
    | some (v, rest) =>
      match skipWs rest with
      | c :: r2 =>
        if c = Char.ofNat 44 then jStep fu (JTask.arrLoop r2 (v :: acc))
        else if c = Char.ofNat 93 then some (PyVal.list (v :: acc).reverse, r2)
        else none
      | [] => none
    | none => none
  | fu + 1, JTask.objLoop cs acc =>
    match skipWs cs with
    | c :: rest =>
      if c = dquote then
        match jStrAux fu rest [] with
        | some (k, r2) =>
          match skipWs r2 with
          | c2 :: r3 =>
            if c2 = Char.ofNat 58 then
              match jStep fu (JTask.val r3) with
              | some (v, r4) =>
                match skipWs r4 with
                | c3 :: r5 =>
                  if c3 = Char.ofNat 44 then
                    jStep fu (JTask.objLoop r5 (dictInsert acc (PyVal.str k) v))
                  else if c3 = rbrace then
                    some (PyVal.dict (dictInsert acc (PyVal.str k) v), r5)
                  else none
                | [] => none
              | none => none
            else none
          | [] => none
        | none => none
      else none
    | [] => none

/-- `json.loads`: decode one JSON document; trailing non-whitespace is the
"Extra data" error. -/
def json_loads (s : String) : Except PyErr PyVal :=
  match jStep (4 * s.data.length + 8) (JTask.val s.data) with
  | some (v, rest) =>
    if skipWs rest = [] then Except.ok v else Except.error PyErr.jsonDecodeError
  | none => Except.error PyErr.jsonDecodeError

/-- `Site.ensure_list_of_strings` (src/main.py lines 52-79), the `mode='before'`
field validator for `image_link`:
- `None` → `[]`;
- a list → each element passed through `str(...)`;
- a string → stripped; empty or (lowercased) "null" → `[]`; otherwise
  `json.loads` is tried: a parsed list is element-wise stringified, any other
  parsed value — or a `JSONDecodeError` — yields the trimmed string wrapped
  in a singleton list;
- any other type → `[]`.
The Python local rebinding `v = v.strip()` is modelled by writing
`pyStrip s` at each later use of `v`. -/
def ensure_list_of_strings (v : PyVal) : Except PyErr PyVal :=
  match v with
  | PyVal.none => Except.ok (PyVal.list [])
  | PyVal.list items =>
    Except.ok (PyVal.list (items.map (fun item => PyVal.str (pyStr item))))
  | PyVal.str s =>
    if pyStrip s = "" ∨ pyLower (pyStrip s) = "null" then Except.ok (PyVal.list [])
    else
      match json_loads (pyStrip s) with
      | Except.ok parsed =>
        match parsed with
        | PyVal.list xs =>
          Except.ok (PyVal.list (xs.map (fun item => PyVal.str (pyStr item))))
        | _ => Except.ok (PyVal.list [PyVal.str (pyStrip s)])
      | Except.error PyErr.jsonDecodeError =>
        Except.ok (PyVal.list [PyVal.str (pyStrip s)])
  | _ => Except.ok (PyVal.list [])

/-- The validator never returns a Python list containing a non-`str`
element. -/
def isPyList : PyVal → Bool
  | PyVal.list _ => true
  | _ => false

/-- Shared shape lemma: on every input the validator succeeds and returns a
Python list all of whose elements are strings. -/
theorem ensure_shape (v : PyVal) :
    ∃ xs : List String,
      ensure_list_of_strings v = Except.ok (PyVal.list (xs.map PyVal.str)) := by
  cases v with
  | none => exact ⟨[], rfl⟩
  | bool b => exact ⟨[], rfl⟩
  | int n => exact ⟨[], rfl⟩
  | float f => exact ⟨[], rfl⟩
  | dict kvs => exact ⟨[], rfl⟩
  | list items =>
    refine ⟨items.map pyStr, ?_⟩
    show Except.ok (PyVal.list (items.map fun item => PyVal.str (pyStr item))) = _
    rw [List.map_map]
    rfl
  | str s =>
    simp only [ensure_list_of_strings]
    by_cases h : pyStrip s = "" ∨ pyLower (pyStrip s) = "null"
    · rw [if_pos h]; exact ⟨[], rfl⟩
    · rw [if_neg h]
      cases hj : json_loads (pyStrip s) with
      | error e => cases e; exact ⟨[pyStrip s], rfl⟩
      | ok p =>
        cases p with
        | list xs =>
          refine ⟨xs.map pyStr, ?_⟩
          show Except.ok (PyVal.list (xs.map fun item => PyVal.str (pyStr item))) = _
          rw [List.map_map]
          rfl
        | none => exact ⟨[pyStrip s], rfl⟩
        | bool b => exact ⟨[pyStrip s], rfl⟩
        | int n => exact ⟨[pyStrip s], rfl⟩
        | float f => exact ⟨[pyStrip s], rfl⟩
        | str t => exact ⟨[pyStrip s], rfl⟩
        | dict kvs => exact ⟨[pyStrip s], rfl⟩

/-- C1: for every input value the normalizer's output is an ordered sequence
of strings — never null, never a bare string, never a non-list value — and
this implementation fixes the empty list as the "no images" sentinel. -/
theorem normalizer_always_list_of_strings :
    (∀ v : PyVal, ∃ xs : List String,
        ensure_list_of_strings v = Except.ok (PyVal.list (xs.map PyVal.str))) ∧
    ensure_list_of_strings PyVal.none = Except.ok (PyVal.list []) :=
  ⟨ensure_shape, rfl⟩

/-- C2: the normalizer never raises — for every input it returns a value,
so no exception escapes the function. -/
theorem normalizer_never_raises :
    ∀ v : PyVal, ∃ r : PyVal, ensure_list_of_strings v = Except.ok r := by
  intro v
  obtain ⟨xs, h⟩ := ensure_shape v
  exact ⟨PyVal.list (xs.map PyVal.str), h⟩

/-- C3: a string whose trimmed form is non-empty, not (case-insensitively)
"null", and JSON-parses to a list, is normalized to that parsed list with
every element coerced to a string, in the parsed order. -/
theorem normalizer_parses_json_array (s : String) (xs : List PyVal)
    (h1 : pyStrip s ≠ "") (h2 : pyLower (pyStrip s) ≠ "null")
    (h3 : json_loads (pyStrip s) = Except.ok (PyVal.list xs)) :
    ensure_list_of_strings (PyVal.str s) =
      Except.ok (PyVal.list (xs.map (fun item => PyVal.str (pyStr item)))) := by
  simp only [ensure_list_of_strings]
  rw [if_neg (not_or.mpr ⟨h1, h2⟩), h3]

/-- Witness for C3: the spec's own example string. -/
theorem normalizer_parses_json_array_witness :
    ensure_list_of_strings (PyVal.str "[\"x.jpg\",\"y.jpg\"]") =
      Except.ok (PyVal.list [PyVal.str "x.jpg", PyVal.str "y.jpg"]) :=
  normalizer_parses_json_array "[\"x.jpg\",\"y.jpg\"]"
    [PyVal.str "x.jpg", PyVal.str "y.jpg"] (by decide) (by decide) (by rfl)

/-- C4: a string whose trimmed form is non-empty and not "null", and whose
JSON parse fails or yields a non-list, is normalized to the singleton list
holding the trimmed original string. -/
theorem normalizer_wraps_trimmed_string (s : String)
    (h1 : pyStrip s ≠ "") (h2 : pyLower (pyStrip s) ≠ "null")
    (h3 : json_loads (pyStrip s) = Except.error PyErr.jsonDecodeError ∨
          ∃ p : PyVal, json_loads (pyStrip s) = Except.ok p ∧ isPyList p = false) :
    ensure_list_of_strings (PyVal.str s) =
      Except.ok (PyVal.list [PyVal.str (pyStrip s)]) := by
  simp only [ensure_list_of_strings]
  rw [if_neg (not_or.mpr ⟨h1, h2⟩)]
  rcases h3 with h | ⟨p, hp, hnl⟩
  · rw [h]
  · rw [hp]
    cases p with
    | list xs => simp [isPyList] at hnl
    | none => rfl
    | bool b => rfl
    | int n => rfl
    | float f => rfl
    | str t => rfl
    | dict kvs => rfl

/-- Witness for C4: the spec's example "42", which parses as a number, not a
list, so the trimmed string itself is wrapped. -/
theorem normalizer_wraps_trimmed_string_witness :
    ensure_list_of_strings (PyVal.str "42") =
      Except.ok (PyVal.list [PyVal.str "42"]) :=
  normalizer_wraps_trimmed_string "42" (by decide) (by decide)
    (Or.inr ⟨PyVal.int 42, by rfl, by rfl⟩)

/-- C5: a null input is normalized to the "no images" sentinel, the empty
list. -/
theorem normalizer_none_is_empty_list :
    ensure_list_of_strings PyVal.none = Except.ok (PyVal.list []) := rfl

/-- C6: a list input has each element coerced to its string representation
with order preserved; a list of strings passes through unchanged, and the
empty list maps to the "no images" representation. -/
theorem normalizer_list_input_coerced :
    (∀ xs : List PyVal, ensure_list_of_strings (PyVal.list xs) =
        Except.ok (PyVal.list (xs.map (fun item => PyVal.str (pyStr item))))) ∧
    (∀ ss : List String, ensure_list_of_strings (PyVal.list (ss.map PyVal.str)) =
        Except.ok (PyVal.list (ss.map PyVal.str))) ∧
    ensure_list_of_strings (PyVal.list []) = Except.ok (PyVal.list []) := by
  refine ⟨fun xs => rfl, fun ss => ?_, rfl⟩
  show Except.ok (PyVal.list ((ss.map PyVal.str).map fun item => PyVal.str (pyStr item))) = _
  rw [List.map_map]
  rfl

/-- C7: a string whose trimmed form is empty or case-insensitively "null"
is normalized to the "no images" sentinel. -/
theorem normalizer_null_string_sentinel (s : String)
    (h : pyStrip s = "" ∨ pyLower (pyStrip s) = "null") :
    ensure_list_of_strings (PyVal.str s) = Except.ok (PyVal.list []) := by
  simp only [ensure_list_of_strings]
  rw [if_pos h]

/-- Witness for C7: the spec's example "  NULL  ". -/
theorem normalizer_null_string_sentinel_witness :
    ensure_list_of_strings (PyVal.str "  NULL  ") = Except.ok (PyVal.list []) :=
  normalizer_null_string_sentinel "  NULL  " (Or.inr (by rfl))

/-- C8: every input that is not null, not a string and not a list — a
number, boolean, float, or dict — is normalized to the "no images"
sentinel rather than raising. -/
theorem normalizer_other_types_sentinel :
    (∀ n : Int, ensure_list_of_strings (PyVal.int n) = Except.ok (PyVal.list [])) ∧
    (∀ b : Bool, ensure_list_of_strings (PyVal.bool b) = Except.ok (PyVal.list [])) ∧
    (∀ f : PyFloat, ensure_list_of_strings (PyVal.float f) = Except.ok (PyVal.list [])) ∧
    (∀ kvs : List (PyVal × PyVal),
        ensure_list_of_strings (PyVal.dict kvs) = Except.ok (PyVal.list [])) :=
  ⟨fun _ => rfl, fun _ => rfl, fun _ => rfl, fun _ => rfl⟩

/-- C9: the normalizer is idempotent on its own outputs — normalizing a
value the normalizer produced returns that value unchanged. -/
theorem normalizer_idempotent (v r : PyVal)
    (h : ensure_list_of_strings v = Except.ok r) :
    ensure_list_of_strings r = Except.ok r := by
  obtain ⟨xs, hx⟩ := ensure_shape v
  rw [h] at hx
  injection hx with h2
  subst h2
  show Except.ok (PyVal.list ((xs.map PyVal.str).map fun item => PyVal.str (pyStr item))) = _
  rw [List.map_map]
  rfl

/-- Witness for C9: the output for a null input re-normalizes to itself. -/
theorem normalizer_idempotent_witness :
    ensure_list_of_strings (PyVal.list []) = Except.ok (PyVal.list []) :=
  normalizer_idempotent PyVal.none (PyVal.list []) rfl

/-- C10: element coercion is Python `str(...)`, not JSON re-encoding: a null
element becomes "None", `True` becomes "True", and a nested list or dict
becomes its Python repr, both for native list inputs and for JSON-parsed
string inputs. -/
theorem normalizer_python_str_coercion :
    ensure_list_of_strings (PyVal.list [PyVal.str "a", PyVal.none, PyVal.bool true]) =
      Except.ok (PyVal.list [PyVal.str "a", PyVal.str "None", PyVal.str "True"]) ∧
    ensure_list_of_strings (PyVal.str "[\"a\", null, true]") =
      Except.ok (PyVal.list [PyVal.str "a", PyVal.str "None", PyVal.str "True"]) ∧
    ensure_list_of_strings (PyVal.list [PyVal.list [PyVal.str "a"], PyVal.dict []]) =
      Except.ok (PyVal.list [PyVal.str "['a']", PyVal.str "\x7b\x7d"]) :=
  ⟨rfl, by rfl, rfl⟩

end EgyptSites
